import Mathlib

/-!
# Verification of the PostMe content workflow engine

Shallow embedding of the content-generation workflow of this repository
(`workflow.py`, `ai_services.py`, `reviewers.py`, `storage.py`), together
with proofs about its regeneration planning, content merging, review
escalation, news aggregation and used-link bookkeeping.

Python dictionaries with a known key set are embedded as structures whose
fields are `Option`-typed when the corresponding key may be absent; a JSON
value that may be `null` or a string is embedded as `Option JStr`
(outer `none` = key absent, `JStr.null` = key present with value `null`).
External collaborators (the OpenAI calls, the console reviewer, the file
system) are embedded as oracle functions supplied in environment records;
an `Except` result models a call that may raise an exception.
-/

/-- A JSON value stored under a text-valued key of a parsed content object:
either `null` or a string (`ai_services.generate_content` parse result). -/
inductive JStr
  | null
  | str (s : String)
deriving DecidableEq, Repr

/-- `GeneratedContent`: the dictionary parsed from the generation model's
JSON output in `ai_services.generate_content`.  Each field is `none` when
the corresponding key is absent from the parsed object. -/
structure ParsedContent where
  post_text : Option JStr := none
  image_prompt : Option JStr := none
  hashtags : Option (List String) := none
deriving DecidableEq, Repr

/-- Python `d.get(key)` on a text-valued field: absent key or `null` value
both give `None`; a string value gives the string. -/
def getStrField : Option JStr → Option String
  | some (JStr.str s) => some s
  | _ => none

/-- Python `d.get(key, '')` on a text-valued field: absent key defaults to
`''`, a `null` value gives `None`, a string value gives the string. -/
def getFieldDefaultEmpty : Option JStr → Option String
  | none => some ""
  | some JStr.null => none
  | some (JStr.str s) => some s

/-- Whether an `Option JStr` holds a non-null string value. -/
def isNonNullStr : Option JStr → Bool
  | some (JStr.str _) => true
  | _ => false

/-- Python truthiness of an optional string (`None` and `''` are falsy). -/
def truthyOptStr : Option String → Bool
  | none => false
  | some s => !(s == "")

/-- The default-filling step of `ai_services.generate_content`
(lines 139-143): when any of the three expected keys is missing,
`setdefault` fills `post_text`/`image_prompt` with `null` and
`hashtags` with `[]`. -/
def fillDefaults (c : ParsedContent) : ParsedContent :=
  if c.post_text.isSome && c.image_prompt.isSome && c.hashtags.isSome then c
  else
    { post_text := some (c.post_text.getD JStr.null),
      image_prompt := some (c.image_prompt.getD JStr.null),
      hashtags := some (c.hashtags.getD []) }

/-- The regeneration target (`regenerate_component` in the source). -/
inductive RegenTarget
  | all
  | text
  | image_prompt
deriving DecidableEq, Repr

/-- The merging step of `ai_services.generate_content` (lines 146-152):
starting from a copy of the parsed (default-filled) content, the kept
approved component overwrites the fresh one only when the target matches
and the kept value is truthy. -/
def mergeContent (parsed : ParsedContent) (regen : RegenTarget)
    (approved_text approved_image_prompt : Option String) : ParsedContent :=
  match regen, approved_text, approved_image_prompt with
  | RegenTarget.text, _, some ip =>
      if ip = "" then parsed else { parsed with image_prompt := some (JStr.str ip) }
  | RegenTarget.image_prompt, some t, _ =>
      if t = "" then parsed else { parsed with post_text := some (JStr.str t) }
  | _, _, _ => parsed

/-- One component verdict dictionary as read by the workflow
(`structured_fb.get('text', {})` style access): both keys may be absent. -/
structure CompVerdictRaw where
  approved : Option Bool := none
  feedback : Option String := none
deriving DecidableEq, Repr

/-- The structured feedback dictionary of a post review outcome.  The
`error` field models the `{'error': ...}` dictionaries the workflow
stores on failures; the planner only ever reads `text`/`image_prompt`. -/
structure PostFeedback where
  text : Option CompVerdictRaw := none
  image_prompt : Option CompVerdictRaw := none
  error : Option String := none
deriving DecidableEq, Repr

/-- Review status of a post review outcome. -/
inductive ReviewStatus
  | approved
  | rejected
deriving DecidableEq, Repr

/-- The result dictionary of `ContentWorkflow._run_review_step`. -/
structure ReviewOutcome where
  status : ReviewStatus
  feedback : PostFeedback
deriving DecidableEq, Repr

/-- `structured_fb.get(component, {}).get('approved', False)`. -/
def approvedOf (o : Option CompVerdictRaw) : Bool :=
  ((o.getD {}).approved).getD false

/-- `structured_fb.get(component, {}).get('feedback')`. -/
def feedbackOf (o : Option CompVerdictRaw) : Option String :=
  (o.getD {}).feedback

/-- The regeneration plan assembled by `ContentWorkflow.run` before each
generation call (the local variables `regenerate_component`,
`text_feedback_for_regen`, `image_prompt_feedback_for_regen`,
`approved_text_for_regen`, `approved_image_prompt_for_regen`). -/
structure RegenPlan where
  regenerate_component : RegenTarget := RegenTarget.all
  text_feedback : Option String := none
  image_prompt_feedback : Option String := none
  approved_text : Option String := none
  approved_image_prompt : Option String := none
deriving DecidableEq, Repr

/-- The plan used for an initial attempt or a retry after generation
failure: regenerate everything, carry nothing. -/
def defaultPlan : RegenPlan := {}

/-- The regeneration-planning block of `ContentWorkflow.run`
(lines 460-505): on an attempt after the first whose previous review was
rejected, derive the target component, forwarded feedback and kept
components from the structured feedback; otherwise regenerate all. -/
def planRegeneration (attempt : Nat) (previousReview : Option ReviewOutcome)
    (previousContent : Option ParsedContent) : RegenPlan :=
  match previousReview with
  | none => defaultPlan
  | some pr =>
    if 0 < attempt ∧ pr.status = ReviewStatus.rejected then
      let text_approved := approvedOf pr.feedback.text
      let prompt_approved := approvedOf pr.feedback.image_prompt
      let text_fb := feedbackOf pr.feedback.text
      let prompt_fb := feedbackOf pr.feedback.image_prompt
      let kept_text := match previousContent with
        | some c => if text_approved then getStrField c.post_text else none
        | none => none
      let kept_prompt := match previousContent with
        | some c => if prompt_approved then getStrField c.image_prompt else none
        | none => none
      if text_approved && !prompt_approved then
        { regenerate_component := RegenTarget.image_prompt,
          text_feedback := none,
          image_prompt_feedback := prompt_fb,
          approved_text := kept_text,
          approved_image_prompt := kept_prompt }
      else if !text_approved && prompt_approved then
        { regenerate_component := RegenTarget.text,
          text_feedback := text_fb,
          image_prompt_feedback := none,
          approved_text := kept_text,
          approved_image_prompt := kept_prompt }
      else
        { regenerate_component := RegenTarget.all,
          text_feedback := if !text_approved then text_fb else none,
          image_prompt_feedback := if !prompt_approved then prompt_fb else none,
          approved_text := none,
          approved_image_prompt := none }
    else defaultPlan

/-- A component verdict entry is malformed: the component's entry is
absent from the feedback dictionary, or it carries no `approved` flag. -/
def verdictMissing (o : Option CompVerdictRaw) : Prop :=
  o = none ∨ ∃ r, o = some r ∧ r.approved = none

/-! ## Platform pipeline (the per-platform attempt loop of `ContentWorkflow.run`) -/

/-- The mutable per-platform state dictionary of `ContentWorkflow.run`
(`platform_states[platform]`). -/
structure PlatformState where
  content : Option ParsedContent := none
  review_outcome : Option ReviewOutcome := none
  attempts : Nat := 0
deriving DecidableEq, Repr

/-- The synthetic review outcome recorded on a hard generation failure:
`{'status': 'rejected', 'feedback': {'error': 'Generation failed'}}`. -/
def genFailedOutcome : ReviewOutcome :=
  { status := ReviewStatus.rejected,
    feedback := { error := some "Generation failed" } }

/-- An external call made inside the platform attempt loop: a content
generation (`_run_generation_step`) or a review (`_run_review_step`). -/
inductive PEvent
  | genCall (attempt : Nat) (plan : RegenPlan)
  | reviewCall (attempt : Nat) (content : ParsedContent)
deriving DecidableEq, Repr

/-- The attempt a platform-loop event belongs to. -/
def PEvent.attemptOf : PEvent → Nat
  | PEvent.genCall a _ => a
  | PEvent.reviewCall a _ => a

/-- Oracles for the external calls of one platform pipeline: the outcome
of `_run_generation_step` (`none` models a falsy return, i.e. a hard
generation failure) and of `_run_review_step`, per attempt. -/
structure PlatformEnv where
  gen : Nat → RegenPlan → Option ParsedContent
  review : Nat → ParsedContent → ReviewOutcome

/-- The attempt loop `for attempt in range(self.max_regen_attempts + 1)`
of `ContentWorkflow.run` (lines 456-548), over an explicit list of
attempt indexes.  Returns the final platform state, the approved content
(`final_approved_content[platform]`, `none` when never approved) and the
trace of external calls made. -/
def platformLoopAux (env : PlatformEnv) (maxRegen : Nat) :
    List Nat → PlatformState → PlatformState × Option ParsedContent × List PEvent
  | [], st => (st, none, [])
  | attempt :: rest, st =>
    let plan := planRegeneration attempt st.review_outcome st.content
    match env.gen attempt plan with
    | none =>
      let st3 : PlatformState :=
        { content := none, review_outcome := some genFailedOutcome, attempts := attempt + 1 }
      if maxRegen ≤ attempt then (st3, none, [PEvent.genCall attempt plan])
      else
        let r := platformLoopAux env maxRegen rest st3
        (r.1, r.2.1, PEvent.genCall attempt plan :: r.2.2)
    | some c =>
      let ro := env.review attempt c
      let st3 : PlatformState :=
        { content := some c, review_outcome := some ro, attempts := attempt + 1 }
      match ro.status with
      | ReviewStatus.approved =>
          (st3, some c, [PEvent.genCall attempt plan, PEvent.reviewCall attempt c])
      | ReviewStatus.rejected =>
        if maxRegen ≤ attempt then
          (st3, none, [PEvent.genCall attempt plan, PEvent.reviewCall attempt c])
        else
          let r := platformLoopAux env maxRegen rest st3
          (r.1, r.2.1, PEvent.genCall attempt plan :: PEvent.reviewCall attempt c :: r.2.2)

/-- One full platform pipeline: the attempt loop over attempts
`0, 1, ..., maxRegen` starting from the fresh platform state. -/
def runPlatform (env : PlatformEnv) (maxRegen : Nat) :
    PlatformState × Option ParsedContent × List PEvent :=
  platformLoopAux env maxRegen (List.range (maxRegen + 1)) {}

/-! ## News aggregation step (`ContentWorkflow._run_news_step`) -/

/-- A fetched article dictionary.  `content` embeds
`article.get('content', '')` (absent key folded into `''`); `title` and
`link` keep key absence explicit. -/
structure Article where
  title : Option String := none
  link : Option String := none
  content : String := ""
deriving DecidableEq, Repr

/-- What the news fetcher call returns: an error string or a list of new
articles. -/
inductive FetchResult
  | errorMsg (s : String)
  | articles (l : List Article)

/-- The dictionary returned by `AIService.review_content` for the news
summary; its two keys are always present (`review_content` rejects
malformed model output itself), and the workflow reads the `approved`
flag by truthiness. -/
structure AIReviewResult where
  approved : Bool
  feedback : String
deriving DecidableEq, Repr

/-- The dictionary returned by `ConsoleReviewer.request_review`: an
overall approval flag and the structured per-component feedback. -/
structure HumanResult where
  approved : Bool
  feedback : PostFeedback
deriving DecidableEq, Repr

/-- Oracles for the external calls of the news step.  An `Except.error`
models an exception raised by the call, which the step's outer
`try/except` turns into the critical-error result; the summarizer and
the AI reviewer catch their own exceptions in the source and so are
total. -/
structure NewsEnv where
  fetch : Except String FetchResult
  threshold : Nat
  summarize : String → String
  aiEnabled : Bool
  aiReview : String → AIReviewResult
  humanRequired : Bool
  humanReview : String → Except String HumanResult

/-- The article-skipping test of the processing loop:
`if not content or content.startswith("[")`. -/
def skipArticle (a : Article) : Bool :=
  a.content == "" || a.content.startsWith "["

/-- The conditional summarization of one article's content
(lines 113-127): summarize when over the threshold, fall back to the
original content when the summary is falsy or an error placeholder. -/
def summarizeIfLong (env : NewsEnv) (content : String) : String :=
  if env.threshold < content.length then
    let summary := env.summarize content
    if !(summary == "") && !(summary.startsWith "[Error")
        && !(summary.startsWith "[Unexpected") then summary
    else content
  else content

/-- The header-plus-body block appended to the combined news content for
one processed article (line 131). -/
def articleBlock (a : Article) (count : Nat) (summarized : String) : String :=
  "ARTICLE " ++ toString (count + 1) ++ ": " ++ a.title.getD "No Title"
    ++ "\nSOURCE: "
    ++ (match a.link with
        | some l => if l = "" then "No Link" else l
        | none => "No Link")
    ++ "\n\n" ++ summarized

/-- One iteration of the article-processing loop (lines 104-135),
threading the combined content, the processed-article count and the
links to mark as used. -/
def newsFoldStep (env : NewsEnv) (acc : String × Nat × List String)
    (a : Article) : String × Nat × List String :=
  if skipArticle a then acc
  else
    let summarized := summarizeIfLong env a.content
    let pre := if acc.1 = "" then acc.1
               else acc.1 ++ "\n\n--- ARTICLE SEPARATOR ---\n\n"
    let combined := pre ++ articleBlock a acc.2.1 summarized
    let links := match a.link with
      | some l => if l ≠ "" ∧ l ≠ "#" then acc.2.2 ++ [l] else acc.2.2
      | none => acc.2.2
    (combined, acc.2.1 + 1, links)

/-- The whole article-processing loop over the fetched articles. -/
def combineArticles (env : NewsEnv) (l : List Article) :
    String × Nat × List String :=
  l.foldl (newsFoldStep env) ("", 0, [])

/-- The `fetched_articles` field of the news step result: the source
stores the raw fetched article dictionaries in it first (line 98) and
only replaces them with the list of used links on approval. -/
inductive ArticlesField
  | dicts (l : List Article)
  | links (l : List String)
deriving DecidableEq, Repr

/-- Emptiness of the `fetched_articles` field, whichever list it holds. -/
def ArticlesField.isEmptyF : ArticlesField → Bool
  | ArticlesField.dicts l => l.isEmpty
  | ArticlesField.links l => l.isEmpty

/-- The links held by the field once the news step approved (the meaning
`ContentWorkflow.run` assigns to it at line 433). -/
def ArticlesField.asLinks : ArticlesField → List String
  | ArticlesField.links l => l
  | ArticlesField.dicts _ => []

/-- Status of the news step result. -/
inductive NewsStatus
  | approved
  | rejected
  | no_news
deriving DecidableEq, Repr

/-- The `feedback` entry of the news step result: a plain string, the AI
review dictionary, or the human reviewer's structured feedback. -/
inductive NewsFeedback
  | str (s : String)
  | ai (r : AIReviewResult)
  | human (f : PostFeedback)
deriving DecidableEq, Repr

/-- The result dictionary of `ContentWorkflow._run_news_step`. -/
structure NewsStepResult where
  status : NewsStatus
  news_summary : Option String
  fetched_articles : ArticlesField
  feedback : NewsFeedback
deriving Repr

/-- `ContentWorkflow._run_news_step` (lines 66-201): fetch, process and
combine articles, run the AI and (conditionally) human reviews, and
handle the fetch-error, no-news, all-skipped, rejection and
critical-error paths. -/
def runNewsStep (env : NewsEnv) : NewsStepResult :=
  let r0 : NewsStepResult :=
    { status := NewsStatus.rejected, news_summary := none,
      fetched_articles := ArticlesField.links [],
      feedback := NewsFeedback.str "Unknown error" }
  match env.fetch with
  | Except.error e =>
      { r0 with feedback := NewsFeedback.str ("Critical error in news step: " ++ e),
                fetched_articles := ArticlesField.links [] }
  | Except.ok (FetchResult.errorMsg s) =>
      { r0 with feedback := NewsFeedback.str ("News fetching failed: " ++ s) }
  | Except.ok (FetchResult.articles l) =>
    if l.isEmpty then
      { r0 with
          feedback := NewsFeedback.str
            "News fetching succeeded, but no *new* relevant articles were found.",
          status := NewsStatus.no_news }
    else
      let r1 := { r0 with fetched_articles := ArticlesField.dicts l }
      let combined := (combineArticles env l).1
      let linksUsed := (combineArticles env l).2.2
      if combined = "" then
        { r1 with
            feedback := NewsFeedback.str
              "All fetched articles were skipped due to missing/invalid content.",
            status := NewsStatus.rejected }
      else
        let r2 := { r1 with news_summary := some combined }
        let aiRev : AIReviewResult :=
          if env.aiEnabled then env.aiReview combined
          else { approved := true, feedback := "AI review skipped by config." }
        let r3 := { r2 with feedback := NewsFeedback.ai aiRev }
        if !aiRev.approved || env.humanRequired then
          match env.humanReview combined with
          | Except.error e =>
              { r3 with feedback := NewsFeedback.str ("Critical error in news step: " ++ e),
                        fetched_articles := ArticlesField.links [] }
          | Except.ok hr =>
            let r4 := { r3 with feedback := NewsFeedback.human hr.feedback }
            if !hr.approved then
              { r4 with status := NewsStatus.rejected,
                        fetched_articles := ArticlesField.links [] }
            else
              { r4 with status := NewsStatus.approved,
                        fetched_articles := ArticlesField.links linksUsed }
        else
          { r3 with status := NewsStatus.approved,
                    fetched_articles := ArticlesField.links linksUsed }

/-! ## Post review step (`ContentWorkflow._run_review_step`) -/

/-- Oracles and policy flags for one invocation of the post review step.
The AI review oracles receive the component value the way the source
extracts it (`platform_content.get('post_text', '')`); the human review
oracle is a single console interaction whose exception is modelled by
`Except.error`. -/
structure ReviewEnv where
  aiTextEnabled : Bool
  aiImageEnabled : Bool
  aiTextReview : Option String → CompVerdictRaw
  aiImageReview : Option String → CompVerdictRaw
  humanRequiredPost : Bool
  human : Except String HumanResult

/-- The auto-approved verdict used for a component whose AI review is
disabled by config. -/
def skippedVerdict : CompVerdictRaw :=
  { approved := some true, feedback := some "AI review skipped by config." }

/-- The `text` component review held in `component_reviews` after the
conditional AI review. -/
def textReviewOf (env : ReviewEnv) (c : ParsedContent) : CompVerdictRaw :=
  if env.aiTextEnabled then env.aiTextReview (getFieldDefaultEmpty c.post_text)
  else skippedVerdict

/-- The `image_prompt` component review held in `component_reviews` after
the conditional AI review. -/
def imageReviewOf (env : ReviewEnv) (c : ParsedContent) : CompVerdictRaw :=
  if env.aiImageEnabled then env.aiImageReview (getFieldDefaultEmpty c.image_prompt)
  else skippedVerdict

/-- `ai_approved_all_components` after both conditional AI reviews: it
starts true and is cleared by an enabled review whose `approved` flag is
falsy. -/
def aiAllApprovedPost (env : ReviewEnv) (c : ParsedContent) : Bool :=
  (!env.aiTextEnabled || approvedOf (some (textReviewOf env c)))
    && (!env.aiImageEnabled || approvedOf (some (imageReviewOf env c)))

/-- The escalation condition of line 360:
`if not ai_approved_all_components or self.human_review_required_post`. -/
def humanInvoked (env : ReviewEnv) (c : ParsedContent) : Bool :=
  !aiAllApprovedPost env c || env.humanRequiredPost

/-- `ContentWorkflow._run_review_step` (lines 309-396): conditional AI
component reviews, escalation to human review, and the critical-error
path for an exception raised during the human review. -/
def runReviewStep (env : ReviewEnv) (content : Option ParsedContent) : ReviewOutcome :=
  match content with
  | none =>
      { status := ReviewStatus.rejected,
        feedback := { error := some "No content provided for review." } }
  | some c =>
    if humanInvoked env c then
      match env.human with
      | Except.error e =>
          { status := ReviewStatus.rejected,
            feedback := { error := some ("Critical error in review step: " ++ e) } }
      | Except.ok hr =>
        let status := if hr.approved then ReviewStatus.approved else ReviewStatus.rejected
        let defv : CompVerdictRaw := { approved := some hr.approved, feedback := some "N/A" }
        { status := status,
          feedback := { text := some (hr.feedback.text.getD defv),
                        image_prompt := some (hr.feedback.image_prompt.getD defv) } }
    else
      { status := ReviewStatus.approved,
        feedback := { text := some (textReviewOf env c),
                      image_prompt := some (imageReviewOf env c) } }

/-! ## The whole run (`ContentWorkflow.run`) -/

/-- An externally visible storage-related call made by `run`: persisting
one platform's post (with its success flag) or appending the used
article links to the ledger. -/
inductive RunEvent
  | saveCall (platform : String) (ok : Bool)
  | appendCall (links : List String)
deriving DecidableEq, Repr

/-- Oracles for one whole workflow run.  `saveOutcome` models
`FileStorage.save_content`, whose exception (`Except.error`) is caught by
the per-platform `try` and demotes that platform's result;
`imageUrl` models `AIService.generate_image`, which catches its own
exceptions and yields `none` on any failure. -/
structure RunEnv where
  newsEnv : NewsEnv
  maxRegen : Nat
  platformEnv : String → PlatformEnv
  imageUrl : String → String → Option String
  saveOutcome : String → ParsedContent → Option String → Except String Unit

/-- The outcome of one run: the final per-platform content
(`final_approved_content`, demotions from save failures applied),
whether any post was saved, and the storage calls made. -/
structure RunResult where
  instagram : Option ParsedContent
  rednote : Option ParsedContent
  anyPostSaved : Bool
  events : List RunEvent

/-- The image-generation decision of the save block (lines 554-577):
request an image only when the approved content's image prompt is
truthy. -/
def imageUrlOf (renv : RunEnv) (platform : String) (c : ParsedContent) :
    Option String :=
  match getStrField c.image_prompt with
  | some p => if p = "" then none else renv.imageUrl platform p
  | none => none

/-- The post-approval save block of `ContentWorkflow.run`
(lines 550-587) for one platform: generate an image only for a truthy
image prompt, save, and demote the platform's result when saving
raises.  Returns the (possibly demoted) final content, whether this
platform's post was saved, and the storage events. -/
def savePhase (renv : RunEnv) (platform : String)
    (approved : Option ParsedContent) :
    Option ParsedContent × Bool × List RunEvent :=
  match approved with
  | none => (none, false, [])
  | some c =>
    match renv.saveOutcome platform c (imageUrlOf renv platform c) with
    | Except.ok _ => (some c, true, [RunEvent.saveCall platform true])
    | Except.error _ => (none, false, [RunEvent.saveCall platform false])

/-- `ContentWorkflow.run` (lines 402-631): run the news step, halt on
rejection or no news, run both platform pipelines with their save
phases, and append the used links at most once at the end — only when
links exist from the approved news and at least one post was saved. -/
def runWorkflow (renv : RunEnv) : RunResult :=
  let news := runNewsStep renv.newsEnv
  match news.status with
  | NewsStatus.rejected => { instagram := none, rednote := none, anyPostSaved := false, events := [] }
  | NewsStatus.no_news => { instagram := none, rednote := none, anyPostSaved := false, events := [] }
  | NewsStatus.approved =>
    let links := news.fetched_articles.asLinks
    let sI := savePhase renv "Instagram"
      (runPlatform (renv.platformEnv "Instagram") renv.maxRegen).2.1
    let sR := savePhase renv "Rednote"
      (runPlatform (renv.platformEnv "Rednote") renv.maxRegen).2.1
    let anySaved := sI.2.1 || sR.2.1
    { instagram := sI.1, rednote := sR.1, anyPostSaved := anySaved,
      events := sI.2.2 ++ sR.2.2
        ++ (if links ≠ [] ∧ anySaved then [RunEvent.appendCall links] else []) }

/-- How many times `append_used_article_links` was invoked in a trace. -/
def countAppend (evs : List RunEvent) : Nat :=
  evs.countP (fun e => match e with | RunEvent.appendCall _ => true | _ => false)

/-- Whether some platform's post was successfully persisted in a trace. -/
def hasSuccessfulSave (evs : List RunEvent) : Bool :=
  evs.any (fun e => match e with | RunEvent.saveCall _ ok => ok | _ => false)

/-! ## Auxiliary states and concrete inputs used by the theorems below -/

/-- The state after an attempt whose generation call failed hard
(line 523 of `workflow.py`). -/
def stAfterGenFail (a : Nat) : PlatformState :=
  { content := none, review_outcome := some genFailedOutcome, attempts := a + 1 }

/-- The state after an attempt whose candidate content was reviewed. -/
def stAfterReview (a : Nat) (c : ParsedContent) (ro : ReviewOutcome) : PlatformState :=
  { content := some c, review_outcome := some ro, attempts := a + 1 }

/-- A parsed JSON object with all three expected keys missing. -/
def cAllMissing : ParsedContent :=
  { post_text := none, image_prompt := none, hashtags := none }

/-- A parsed JSON object missing `post_text` and `hashtags`. -/
def cPartMissing : ParsedContent :=
  { post_text := none, image_prompt := some (JStr.str "x"), hashtags := none }

/-- Previous rejected verdict approving the text and rejecting the image
prompt with feedback `"too generic"` (the spec's scenario). -/
def pr1 : ReviewOutcome :=
  { status := ReviewStatus.rejected,
    feedback :=
      { text := some { approved := some true, feedback := some "nice" },
        image_prompt := some { approved := some false, feedback := some "too generic" } } }

/-- The previous attempt's content for the C1 witness. -/
def c1 : ParsedContent :=
  { post_text := some (JStr.str "attempt-1 post"),
    image_prompt := some (JStr.str "attempt-1 prompt"),
    hashtags := some ["#a"] }

/-- A previous rejected verdict whose `text` entry is missing entirely
while the `image_prompt` entry is explicitly approved. -/
def prPartial : ReviewOutcome :=
  { status := ReviewStatus.rejected,
    feedback :=
      { text := none,
        image_prompt := some { approved := some true, feedback := some "good prompt" } } }

/-- The previous attempt's content for the C3 counterexample. -/
def cPrev : ParsedContent :=
  { post_text := some (JStr.str "old text"),
    image_prompt := some (JStr.str "old prompt"),
    hashtags := some [] }

/-- A wholly malformed previous verdict: rejected with a feedback
dictionary carrying neither component entry. -/
def prMalformed : ReviewOutcome :=
  { status := ReviewStatus.rejected, feedback := {} }

/-- A platform oracle whose generation call always fails. -/
def env0 : PlatformEnv :=
  { gen := fun _ _ => none,
    review := fun _ _ => { status := ReviewStatus.rejected, feedback := {} } }

/-- The fresh platform state. -/
def st0 : PlatformState := {}

/-- An article fetched with empty body text. -/
def cexArticle : Article :=
  { title := some "T", link := some "http://example.com/a", content := "" }

/-- A news environment whose single fetched article has empty content. -/
def cexNewsEnv : NewsEnv :=
  { fetch := Except.ok (FetchResult.articles [cexArticle]),
    threshold := 1500,
    summarize := fun s => s,
    aiEnabled := true,
    aiReview := fun _ => { approved := true, feedback := "ok" },
    humanRequired := false,
    humanReview := fun _ => Except.ok { approved := true, feedback := {} } }

/-- A news environment whose fetcher call returns an error message. -/
def wNewsEnv : NewsEnv :=
  { fetch := Except.ok (FetchResult.errorMsg "network down"),
    threshold := 1500,
    summarize := fun s => s,
    aiEnabled := true,
    aiReview := fun _ => { approved := true, feedback := "ok" },
    humanRequired := false,
    humanReview := fun _ => Except.ok { approved := true, feedback := {} } }

/-- A whole-run environment whose news step is rejected. -/
def wRunEnv : RunEnv :=
  { newsEnv := wNewsEnv,
    maxRegen := 1,
    platformEnv := fun _ => env0,
    imageUrl := fun _ _ => none,
    saveOutcome := fun _ _ _ => Except.ok () }

/-- A concrete content object under review. -/
def cR : ParsedContent :=
  { post_text := some (JStr.str "p"), image_prompt := some (JStr.str "i"),
    hashtags := some [] }

/-- A review environment mandating human review whose human rejects the
post overall while covering no component in the returned feedback. -/
def envC7 : ReviewEnv :=
  { aiTextEnabled := false, aiImageEnabled := false,
    aiTextReview := fun _ => {}, aiImageReview := fun _ => {},
    humanRequiredPost := true,
    human := Except.ok { approved := false, feedback := {} } }

/-- An approving human result covering no component. -/
def hrW : HumanResult := { approved := true, feedback := {} }

/-- A review environment mandating human review whose human approves. -/
def envW7 : ReviewEnv :=
  { aiTextEnabled := false, aiImageEnabled := false,
    aiTextReview := fun _ => {}, aiImageReview := fun _ => {},
    humanRequiredPost := true,
    human := Except.ok hrW }

/-! ## Basic facts about the embedded operations -/

/-- A missing component verdict is read as not approved. -/
theorem approvedOf_of_missing {o : Option CompVerdictRaw}
    (h : verdictMissing o) : approvedOf o = false := by
  rcases h with h | ⟨r, hr, ha⟩
  · simp [approvedOf, h]
  · simp [approvedOf, hr, ha]

/-! ## C6: merging with target `all` is the identity -/

/-- C6: for every generated content object, merging with
`regenerate_component = 'all'` returns it unmodified — no component is
overwritten by a kept value (`ai_services.generate_content`,
lines 146-152). -/
theorem merge_all_identity (c : ParsedContent)
    (a b : Option String) : mergeContent c RegenTarget.all a b = c := by
  cases a <;> cases b <;> rfl

/-! ## C10: an empty kept component never overwrites the fresh one -/

/-- C10: in partial-regeneration merging, a kept component that is `None`
or the empty string is ignored: for target `text` with such a kept image
prompt the fresh content is returned unchanged, and symmetrically for
target `image_prompt` with such a kept post text. -/
theorem merge_empty_kept_ignored (c : ParsedContent) (t ip k : Option String)
    (h : k = none ∨ k = some "") :
    mergeContent c RegenTarget.text t k = c ∧
    mergeContent c RegenTarget.image_prompt k ip = c := by
  rcases h with h | h <;> subst h <;> exact ⟨by cases t <;> rfl, by cases ip <;> rfl⟩

/-- Witness for C10 at a concrete content object and kept value. -/
theorem merge_empty_kept_ignored_witness :
    mergeContent { post_text := some (JStr.str "p"), image_prompt := some JStr.null,
                   hashtags := some [] } RegenTarget.text (some "t") none =
      { post_text := some (JStr.str "p"), image_prompt := some JStr.null,
        hashtags := some [] } :=
  (merge_empty_kept_ignored _ (some "t") (some "i") none (Or.inl rfl)).1

/-! ## C8: default filling of a parsed object with missing keys -/

/-- Counterexample to C8: on a parsed JSON object missing all three keys,
default filling yields `hashtags = []` but fills `post_text` and
`image_prompt` with `null`, not with non-null placeholder values
(`parsed_content.setdefault('post_text', None)`). -/
theorem fillDefaults_null_cex :
    (fillDefaults cAllMissing).hashtags = some [] ∧
    isNonNullStr (fillDefaults cAllMissing).post_text = false ∧
    isNonNullStr (fillDefaults cAllMissing).image_prompt = false := by
  exact ⟨rfl, rfl, rfl⟩

/-- C8 (amended): on a parsed JSON object missing one or more of the
three expected keys, default filling always yields a result with all
three keys present, `hashtags = []` for a missing `hashtags` key, and
the `null` default for a missing `post_text` or `image_prompt` key. -/
theorem fillDefaults_fills (c : ParsedContent)
    (h : c.post_text = none ∨ c.image_prompt = none ∨ c.hashtags = none) :
    (fillDefaults c).post_text.isSome = true ∧
    (fillDefaults c).image_prompt.isSome = true ∧
    (fillDefaults c).hashtags.isSome = true ∧
    (c.post_text = none → (fillDefaults c).post_text = some JStr.null) ∧
    (c.image_prompt = none → (fillDefaults c).image_prompt = some JStr.null) ∧
    (c.hashtags = none → (fillDefaults c).hashtags = some []) := by
  have hcond : (c.post_text.isSome && c.image_prompt.isSome && c.hashtags.isSome) = false := by
    rcases h with h | h | h <;> simp [h]
  refine ⟨?_, ?_, ?_, ?_, ?_, ?_⟩ <;>
    simp [fillDefaults, hcond] <;> intro h2 <;> simp [h2]

/-- Witness for C8 (amended) at a concrete object missing `post_text`
and `hashtags`. -/
theorem fillDefaults_fills_witness :
    (fillDefaults cPartMissing).post_text.isSome = true ∧
    (fillDefaults cPartMissing).image_prompt.isSome = true ∧
    (fillDefaults cPartMissing).hashtags.isSome = true ∧
    (cPartMissing.post_text = none →
      (fillDefaults cPartMissing).post_text = some JStr.null) ∧
    (cPartMissing.image_prompt = none →
      (fillDefaults cPartMissing).image_prompt = some JStr.null) ∧
    (cPartMissing.hashtags = none →
      (fillDefaults cPartMissing).hashtags = some []) :=
  fillDefaults_fills cPartMissing (Or.inl rfl)

/-! ## C1: a single-component rejection is regenerated in a targeted way -/

/-- C1: on an attempt after the first whose previous rejected verdict
approved exactly one of the two components, the plan targets only the
rejected component, carries the approved component's value from the
previous content forward unchanged, and forwards only the rejected
component's feedback (`ContentWorkflow.run`, lines 470-499). -/
theorem plan_single_component (n : Nat) (pr : ReviewOutcome) (c : ParsedContent)
    (hn : 0 < n) (hrej : pr.status = ReviewStatus.rejected) :
    (approvedOf pr.feedback.text = true → approvedOf pr.feedback.image_prompt = false →
      planRegeneration n (some pr) (some c) =
        { regenerate_component := RegenTarget.image_prompt,
          text_feedback := none,
          image_prompt_feedback := feedbackOf pr.feedback.image_prompt,
          approved_text := getStrField c.post_text,
          approved_image_prompt := none }) ∧
    (approvedOf pr.feedback.text = false → approvedOf pr.feedback.image_prompt = true →
      planRegeneration n (some pr) (some c) =
        { regenerate_component := RegenTarget.text,
          text_feedback := feedbackOf pr.feedback.text,
          image_prompt_feedback := none,
          approved_text := none,
          approved_image_prompt := getStrField c.image_prompt }) := by
  constructor <;> intro ht hp <;> simp [planRegeneration, hn, hrej, ht, hp]

/-- Witness for C1: the spec's scenario — only the image prompt was
rejected with feedback `"too generic"`, so the next plan targets the
image prompt, keeps the attempt-1 post text, and forwards only that
feedback. -/
theorem plan_single_component_witness :
    planRegeneration 1 (some pr1) (some c1) =
      { regenerate_component := RegenTarget.image_prompt,
        text_feedback := none,
        image_prompt_feedback := some "too generic",
        approved_text := some "attempt-1 post",
        approved_image_prompt := none } :=
  (plan_single_component 1 pr1 c1 (by decide) rfl).1 rfl rfl

/-! ## C3: malformed or partially missing previous verdicts -/

/-- Counterexample to C3: with the `text` verdict entry missing and the
`image_prompt` entry approved, the plan targets `text` (not `all`) and
carries the previously generated image prompt over. -/
theorem plan_missing_cex :
    (planRegeneration 1 (some prPartial) (some cPrev)).regenerate_component
        = RegenTarget.text ∧
    (planRegeneration 1 (some prPartial) (some cPrev)).regenerate_component
        ≠ RegenTarget.all ∧
    (planRegeneration 1 (some prPartial) (some cPrev)).approved_image_prompt
        = some "old prompt" := by
  refine ⟨rfl, by decide, rfl⟩

/-- C3 (amended): a missing component verdict (absent entry or absent
`approved` flag) is treated as rejected and never as approved — that
component is never carried over and is always among the regeneration
targets; only when both expected entries are missing does the plan
target `all` and carry over no component. -/
theorem plan_missing_treated_rejected (n : Nat) (pr : ReviewOutcome)
    (pc : Option ParsedContent)
    (hn : 0 < n) (hrej : pr.status = ReviewStatus.rejected) :
    (verdictMissing pr.feedback.text →
      (planRegeneration n (some pr) pc).approved_text = none ∧
      (planRegeneration n (some pr) pc).regenerate_component ≠ RegenTarget.image_prompt) ∧
    (verdictMissing pr.feedback.image_prompt →
      (planRegeneration n (some pr) pc).approved_image_prompt = none ∧
      (planRegeneration n (some pr) pc).regenerate_component ≠ RegenTarget.text) ∧
    (verdictMissing pr.feedback.text → verdictMissing pr.feedback.image_prompt →
      (planRegeneration n (some pr) pc).regenerate_component = RegenTarget.all ∧
      (planRegeneration n (some pr) pc).approved_text = none ∧
      (planRegeneration n (some pr) pc).approved_image_prompt = none) := by
  refine ⟨fun hm => ?_, fun hm => ?_, fun hmt hmp => ?_⟩
  · have ht := approvedOf_of_missing hm
    cases hb : approvedOf pr.feedback.image_prompt <;> cases pc <;>
      simp [planRegeneration, hn, hrej, ht, hb]
  · have hp := approvedOf_of_missing hm
    cases hb : approvedOf pr.feedback.text <;> cases pc <;>
      simp [planRegeneration, hn, hrej, hp, hb]
  · have ht := approvedOf_of_missing hmt
    have hp := approvedOf_of_missing hmp
    cases pc <;> simp [planRegeneration, hn, hrej, ht, hp]

/-- Witness for C3 (amended) at a wholly malformed rejected verdict. -/
theorem plan_missing_treated_rejected_witness :
    (planRegeneration 1 (some prMalformed) none).regenerate_component = RegenTarget.all ∧
    (planRegeneration 1 (some prMalformed) none).approved_text = none ∧
    (planRegeneration 1 (some prMalformed) none).approved_image_prompt = none :=
  (plan_missing_treated_rejected 1 prMalformed none (by decide) rfl).2.2
    (Or.inl rfl) (Or.inl rfl)

/-! ## Stepping lemmas for the platform attempt loop -/

theorem platformLoopAux_nil (env : PlatformEnv) (m : Nat) (st : PlatformState) :
    platformLoopAux env m [] st = (st, none, []) := rfl

theorem platformLoopAux_genFail_stop (env : PlatformEnv) (m a : Nat)
    (rest : List Nat) (st : PlatformState)
    (hg : env.gen a (planRegeneration a st.review_outcome st.content) = none)
    (hle : m ≤ a) :
    platformLoopAux env m (a :: rest) st =
      (stAfterGenFail a, none,
        [PEvent.genCall a (planRegeneration a st.review_outcome st.content)]) := by
  simp [platformLoopAux, hg, hle, stAfterGenFail]

theorem platformLoopAux_genFail_cont (env : PlatformEnv) (m a : Nat)
    (rest : List Nat) (st : PlatformState)
    (hg : env.gen a (planRegeneration a st.review_outcome st.content) = none)
    (hlt : a < m) :
    platformLoopAux env m (a :: rest) st =
      ((platformLoopAux env m rest (stAfterGenFail a)).1,
       (platformLoopAux env m rest (stAfterGenFail a)).2.1,
       PEvent.genCall a (planRegeneration a st.review_outcome st.content)
         :: (platformLoopAux env m rest (stAfterGenFail a)).2.2) := by
  have hle : ¬ m ≤ a := by omega
  simp [platformLoopAux, hg, hle, stAfterGenFail]

theorem platformLoopAux_approved (env : PlatformEnv) (m a : Nat)
    (rest : List Nat) (st : PlatformState) (c : ParsedContent)
    (hg : env.gen a (planRegeneration a st.review_outcome st.content) = some c)
    (hs : (env.review a c).status = ReviewStatus.approved) :
    platformLoopAux env m (a :: rest) st =
      (stAfterReview a c (env.review a c), some c,
        [PEvent.genCall a (planRegeneration a st.review_outcome st.content),
         PEvent.reviewCall a c]) := by
  simp [platformLoopAux, hg, hs, stAfterReview]

theorem platformLoopAux_rejected_stop (env : PlatformEnv) (m a : Nat)
    (rest : List Nat) (st : PlatformState) (c : ParsedContent)
    (hg : env.gen a (planRegeneration a st.review_outcome st.content) = some c)
    (hs : (env.review a c).status = ReviewStatus.rejected)
    (hle : m ≤ a) :
    platformLoopAux env m (a :: rest) st =
      (stAfterReview a c (env.review a c), none,
        [PEvent.genCall a (planRegeneration a st.review_outcome st.content),
         PEvent.reviewCall a c]) := by
  simp [platformLoopAux, hg, hs, hle, stAfterReview]

theorem platformLoopAux_rejected_cont (env : PlatformEnv) (m a : Nat)
    (rest : List Nat) (st : PlatformState) (c : ParsedContent)
    (hg : env.gen a (planRegeneration a st.review_outcome st.content) = some c)
    (hs : (env.review a c).status = ReviewStatus.rejected)
    (hlt : a < m) :
    platformLoopAux env m (a :: rest) st =
      ((platformLoopAux env m rest (stAfterReview a c (env.review a c))).1,
       (platformLoopAux env m rest (stAfterReview a c (env.review a c))).2.1,
       PEvent.genCall a (planRegeneration a st.review_outcome st.content)
         :: PEvent.reviewCall a c
         :: (platformLoopAux env m rest (stAfterReview a c (env.review a c))).2.2) := by
  have hle : ¬ m ≤ a := by omega
  simp [platformLoopAux, hg, hs, hle, stAfterReview]

/-! ## C4: the recorded attempt count is bounded -/

theorem platformLoop_attempts_le (env : PlatformEnv) (m : Nat) :
    ∀ (l : List Nat) (st : PlatformState), (∀ a ∈ l, a ≤ m) →
      st.attempts ≤ m + 1 →
      (platformLoopAux env m l st).1.attempts ≤ m + 1 := by
  intro l
  induction l with
  | nil => intro st _ hst; simpa [platformLoopAux_nil] using hst
  | cons a rest ih =>
    intro st hl hst
    have ha : a ≤ m := hl a (List.mem_cons_self a rest)
    have hrest : ∀ b ∈ rest, b ≤ m := fun b hb => hl b (List.mem_cons_of_mem a hb)
    cases hg : env.gen a (planRegeneration a st.review_outcome st.content) with
    | none =>
      by_cases hle : m ≤ a
      · rw [platformLoopAux_genFail_stop env m a rest st hg hle]
        simp [stAfterGenFail]; omega
      · rw [platformLoopAux_genFail_cont env m a rest st hg (by omega)]
        exact ih _ hrest (by simp [stAfterGenFail]; omega)
    | some c =>
      cases hs : (env.review a c).status with
      | approved =>
        rw [platformLoopAux_approved env m a rest st c hg hs]
        simp [stAfterReview]; omega
      | rejected =>
        by_cases hle : m ≤ a
        · rw [platformLoopAux_rejected_stop env m a rest st c hg hs hle]
          simp [stAfterReview]; omega
        · rw [platformLoopAux_rejected_cont env m a rest st c hg hs (by omega)]
          exact ih _ hrest (by simp [stAfterReview]; omega)

/-- C4: for every platform pipeline and every oracle behaviour, the
recorded attempt count of the final platform state never exceeds
`max_regen_attempts + 1` (the loop of `ContentWorkflow.run`, line 456,
writes `attempt + 1` with `attempt` ranging over
`range(max_regen_attempts + 1)`; the non-negativity assumption of the
claim is captured by `maxRegen : Nat`). -/
theorem attempts_le_bound (env : PlatformEnv) (maxRegen : Nat) :
    (runPlatform env maxRegen).1.attempts ≤ maxRegen + 1 := by
  refine platformLoop_attempts_le env maxRegen _ _ ?_ (by simp)
  intro a ha
  have := List.mem_range.mp ha
  omega

/-! ## C5: a hard generation failure skips review but consumes an attempt -/

theorem platformLoop_event_mem (env : PlatformEnv) (m : Nat) :
    ∀ (l : List Nat) (st : PlatformState) (e : PEvent),
      e ∈ (platformLoopAux env m l st).2.2 → e.attemptOf ∈ l := by
  intro l
  induction l with
  | nil => intro st e he; simp [platformLoopAux_nil] at he
  | cons a rest ih =>
    intro st e he
    cases hg : env.gen a (planRegeneration a st.review_outcome st.content) with
    | none =>
      by_cases hle : m ≤ a
      · rw [platformLoopAux_genFail_stop env m a rest st hg hle] at he
        simp at he
        simp [he, PEvent.attemptOf]
      · rw [platformLoopAux_genFail_cont env m a rest st hg (by omega)] at he
        simp at he
        rcases he with he | he
        · simp [he, PEvent.attemptOf]
        · exact List.mem_cons_of_mem a (ih _ e he)
    | some c =>
      cases hs : (env.review a c).status with
      | approved =>
        rw [platformLoopAux_approved env m a rest st c hg hs] at he
        simp at he
        rcases he with he | he <;> simp [he, PEvent.attemptOf]
      | rejected =>
        by_cases hle : m ≤ a
        · rw [platformLoopAux_rejected_stop env m a rest st c hg hs hle] at he
          simp at he
          rcases he with he | he <;> simp [he, PEvent.attemptOf]
        · rw [platformLoopAux_rejected_cont env m a rest st c hg hs (by omega)] at he
          simp at he
          rcases he with he | he | he
          · simp [he, PEvent.attemptOf]
          · simp [he, PEvent.attemptOf]
          · exact List.mem_cons_of_mem a (ih _ e he)

theorem platformLoop_trace_head (env : PlatformEnv) (m a : Nat)
    (rest : List Nat) (st : PlatformState) :
    ∃ tail, (platformLoopAux env m (a :: rest) st).2.2 =
      PEvent.genCall a (planRegeneration a st.review_outcome st.content) :: tail := by
  cases hg : env.gen a (planRegeneration a st.review_outcome st.content) with
  | none =>
    by_cases hle : m ≤ a
    · rw [platformLoopAux_genFail_stop env m a rest st hg hle]; exact ⟨_, rfl⟩
    · rw [platformLoopAux_genFail_cont env m a rest st hg (by omega)]; exact ⟨_, rfl⟩
  | some c =>
    cases hs : (env.review a c).status with
    | approved =>
      rw [platformLoopAux_approved env m a rest st c hg hs]; exact ⟨_, rfl⟩
    | rejected =>
      by_cases hle : m ≤ a
      · rw [platformLoopAux_rejected_stop env m a rest st c hg hs hle]; exact ⟨_, rfl⟩
      · rw [platformLoopAux_rejected_cont env m a rest st c hg hs (by omega)]; exact ⟨_, rfl⟩

/-- C5: on an attempt whose generation call returns no content, the loop
records the synthetic rejected verdict (`stAfterGenFail`: state with
`review_outcome = genFailedOutcome` and the attempt counted as
`attempt + 1`), makes no review call for that attempt, and retries
generation on the next attempt unless the bound is exhausted. -/
theorem genFailure_no_review (env : PlatformEnv) (maxRegen attempt : Nat)
    (rest : List Nat) (st : PlatformState)
    (hgen : env.gen attempt (planRegeneration attempt st.review_outcome st.content) = none)
    (hrest : attempt ∉ rest) :
    (∀ ct : ParsedContent,
      PEvent.reviewCall attempt ct ∉ (platformLoopAux env maxRegen (attempt :: rest) st).2.2) ∧
    (maxRegen ≤ attempt →
      platformLoopAux env maxRegen (attempt :: rest) st =
        (stAfterGenFail attempt, none,
          [PEvent.genCall attempt (planRegeneration attempt st.review_outcome st.content)])) ∧
    (attempt < maxRegen →
      platformLoopAux env maxRegen (attempt :: rest) st =
        ((platformLoopAux env maxRegen rest (stAfterGenFail attempt)).1,
         (platformLoopAux env maxRegen rest (stAfterGenFail attempt)).2.1,
         PEvent.genCall attempt (planRegeneration attempt st.review_outcome st.content)
           :: (platformLoopAux env maxRegen rest (stAfterGenFail attempt)).2.2)) ∧
    (attempt < maxRegen → ∀ a2 rest2, rest = a2 :: rest2 →
      ∃ p2 tail,
        (platformLoopAux env maxRegen (attempt :: rest) st).2.2 =
          PEvent.genCall attempt (planRegeneration attempt st.review_outcome st.content)
            :: PEvent.genCall a2 p2 :: tail) := by
  refine ⟨?_, ?_, ?_, ?_⟩
  · intro ct hmem
    by_cases hle : maxRegen ≤ attempt
    · rw [platformLoopAux_genFail_stop env maxRegen attempt rest st hgen hle] at hmem
      simp at hmem
    · rw [platformLoopAux_genFail_cont env maxRegen attempt rest st hgen (by omega)] at hmem
      rcases List.mem_cons.mp hmem with hmem | hmem
      · exact absurd hmem (by simp)
      · have := platformLoop_event_mem env maxRegen rest (stAfterGenFail attempt)
          (PEvent.reviewCall attempt ct) hmem
        simp [PEvent.attemptOf] at this
        exact hrest this
  · intro hle
    exact platformLoopAux_genFail_stop env maxRegen attempt rest st hgen hle
  · intro hlt
    exact platformLoopAux_genFail_cont env maxRegen attempt rest st hgen hlt
  · intro hlt a2 rest2 hr
    subst hr
    rw [platformLoopAux_genFail_cont env maxRegen attempt (a2 :: rest2) st hgen hlt]
    obtain ⟨tail, htail⟩ :=
      platformLoop_trace_head env maxRegen a2 rest2 (stAfterGenFail attempt)
    exact ⟨_, tail, by rw [htail]⟩

/-! ## C2: consumed links of a rejected news step -/

theorem string_append_eq_empty {s t : String} (h : s ++ t = "") :
    s = "" ∧ t = "" := by
  cases s with
  | mk d1 =>
    cases t with
    | mk d2 =>
      have h2 : d1 ++ d2 = [] := congrArg String.data h
      have h3 := List.append_eq_nil.mp h2
      exact ⟨by rw [h3.1], by rw [h3.2]⟩

theorem articleBlock_ne_empty (a : Article) (k : Nat) (s : String) :
    articleBlock a k s ≠ "" := by
  intro h
  unfold articleBlock at h
  have h1 := (string_append_eq_empty h).1
  have h2 := (string_append_eq_empty h1).1
  have h3 := (string_append_eq_empty h2).1
  have h4 := (string_append_eq_empty h3).1
  have h5 := (string_append_eq_empty h4).1
  have h6 := (string_append_eq_empty h5).1
  have h7 := (string_append_eq_empty h6).1
  exact absurd h7 (by decide)

/-- If one processing-loop step leaves the combined content empty, the
accumulator was empty and the article was skipped. -/
theorem newsFoldStep_empty (env : NewsEnv) (acc : String × Nat × List String)
    (a : Article) (h : (newsFoldStep env acc a).1 = "") :
    acc.1 = "" ∧ skipArticle a = true := by
  cases hskip : skipArticle a with
  | true => exact ⟨by simpa [newsFoldStep, hskip] using h, rfl⟩
  | false =>
    exfalso
    simp only [newsFoldStep, hskip] at h
    simp at h
    exact absurd (string_append_eq_empty h).2
      (articleBlock_ne_empty a acc.2.1 (summarizeIfLong env a.content))

/-- If the whole processing loop leaves the combined content empty, every
article in the list was skipped. -/
theorem combine_foldl_empty (env : NewsEnv) :
    ∀ (l : List Article) (acc : String × Nat × List String),
      (l.foldl (newsFoldStep env) acc).1 = "" →
      acc.1 = "" ∧ ∀ a ∈ l, skipArticle a = true := by
  intro l
  induction l with
  | nil => intro acc h; exact ⟨by simpa using h, by simp⟩
  | cons a rest ih =>
    intro acc h
    rw [List.foldl_cons] at h
    obtain ⟨h1, h2⟩ := ih (newsFoldStep env acc a) h
    obtain ⟨h3, h4⟩ := newsFoldStep_empty env acc a h1
    refine ⟨h3, ?_⟩
    intro b hb
    rcases List.mem_cons.mp hb with rfl | hb
    · exact h4
    · exact h2 b hb

/-- Characterization of the `fetched_articles` field of a rejected news
step result: it is empty on every rejection path except the
all-articles-skipped one, where it still holds the raw fetched article
dictionaries. -/
theorem runNewsStep_articles_char (env : NewsEnv) :
    (runNewsStep env).status ≠ NewsStatus.rejected ∨
    (runNewsStep env).fetched_articles.isEmptyF = true ∨
    (∃ l, l ≠ [] ∧ env.fetch = Except.ok (FetchResult.articles l) ∧
      (runNewsStep env).fetched_articles = ArticlesField.dicts l ∧
      ∀ a ∈ l, skipArticle a = true) := by
  cases hf : env.fetch with
  | error e => right; left; simp [runNewsStep, hf, ArticlesField.isEmptyF]
  | ok fr =>
    cases fr with
    | errorMsg s => right; left; simp [runNewsStep, hf, ArticlesField.isEmptyF]
    | articles l =>
      cases hl : l.isEmpty with
      | true => left; simp [runNewsStep, hf, hl]
      | false =>
        by_cases hc : (combineArticles env l).1 = ""
        · right; right
          refine ⟨l, ?_, rfl, ?_, ?_⟩
          · intro hnil; rw [hnil] at hl; simp at hl
          · simp [runNewsStep, hf, hl, hc]
          · exact (combine_foldl_empty env l ("", 0, []) hc).2
        · cases hai : env.aiEnabled with
          | false =>
            cases hH : env.humanRequired with
            | false => left; simp [runNewsStep, hf, hl, hc, hai, hH]
            | true =>
              cases hh : env.humanReview (combineArticles env l).1 with
              | error e =>
                right; left
                simp [runNewsStep, hf, hl, hc, hai, hH, hh, ArticlesField.isEmptyF]
              | ok hr =>
                cases hap : hr.approved with
                | true => left; simp [runNewsStep, hf, hl, hc, hai, hH, hh, hap]
                | false =>
                  right; left
                  simp [runNewsStep, hf, hl, hc, hai, hH, hh, hap, ArticlesField.isEmptyF]
          | true =>
            cases hA : (env.aiReview (combineArticles env l).1).approved with
            | true =>
              cases hH : env.humanRequired with
              | false => left; simp [runNewsStep, hf, hl, hc, hai, hA, hH]
              | true =>
                cases hh : env.humanReview (combineArticles env l).1 with
                | error e =>
                  right; left
                  simp [runNewsStep, hf, hl, hc, hai, hA, hH, hh, ArticlesField.isEmptyF]
                | ok hr =>
                  cases hap : hr.approved with
                  | true => left; simp [runNewsStep, hf, hl, hc, hai, hA, hH, hh, hap]
                  | false =>
                    right; left
                    simp [runNewsStep, hf, hl, hc, hai, hA, hH, hh, hap,
                      ArticlesField.isEmptyF]
            | false =>
              cases hh : env.humanReview (combineArticles env l).1 with
              | error e =>
                right; left
                simp [runNewsStep, hf, hl, hc, hai, hA, hh, ArticlesField.isEmptyF]
              | ok hr =>
                cases hap : hr.approved with
                | true => left; simp [runNewsStep, hf, hl, hc, hai, hA, hh, hap]
                | false =>
                  right; left
                  simp [runNewsStep, hf, hl, hc, hai, hA, hh, hap, ArticlesField.isEmptyF]

/-- Counterexample to C2: when every fetched article is skipped for
empty/placeholder content, the step's verdict is rejected but its
`fetched_articles` result still holds the raw fetched article
dictionaries — it is not empty. -/
theorem newsStep_rejected_nonempty_cex :
    (runNewsStep cexNewsEnv).status = NewsStatus.rejected ∧
    (runNewsStep cexNewsEnv).fetched_articles.isEmptyF = false := by
  exact ⟨rfl, rfl⟩

/-- C2 (amended): whenever the news step's verdict is rejected, its
consumed-links result is empty — except on the all-articles-skipped
path, where the field still holds the raw fetched article dictionaries;
in every rejected run `ContentWorkflow.run` halts before the platform
work, so no storage call is made and no link is ever committed to the
used-link ledger. -/
theorem newsRejected_consumedLinks (renv : RunEnv)
    (h : (runNewsStep renv.newsEnv).status = NewsStatus.rejected) :
    ((runNewsStep renv.newsEnv).fetched_articles.isEmptyF = true ∨
      (∃ l, l ≠ [] ∧ renv.newsEnv.fetch = Except.ok (FetchResult.articles l) ∧
        (runNewsStep renv.newsEnv).fetched_articles = ArticlesField.dicts l ∧
        ∀ a ∈ l, skipArticle a = true)) ∧
    (runWorkflow renv).events = [] := by
  constructor
  · rcases runNewsStep_articles_char renv.newsEnv with hno | hE | hD
    · exact absurd h hno
    · exact Or.inl hE
    · exact Or.inr hD
  · simp [runWorkflow, h]

/-- Witness for C5: with `max_regen_attempts = 0` and a generation call
that fails on attempt 0, the loop stops with the synthetic rejected
verdict recorded, one counted attempt, and no review call. -/
theorem genFailure_no_review_witness :
    platformLoopAux env0 0 [0] st0 =
      (stAfterGenFail 0, none,
        [PEvent.genCall 0 (planRegeneration 0 st0.review_outcome st0.content)]) :=
  (genFailure_no_review env0 0 0 [] st0 rfl (by simp)).2.1 (Nat.le_refl 0)

/-- Witness for C2 (amended): in a run whose news step is rejected, no
storage call — in particular no used-link append — is ever made. -/
theorem newsRejected_consumedLinks_witness :
    (runWorkflow wRunEnv).events = [] :=
  (newsRejected_consumedLinks wRunEnv rfl).2

/-! ## C7: human review escalation for a full post -/

/-- Counterexample to C7: when the invoked human rejects the post
overall and covers no component, each uncovered component defaults to a
*rejected* verdict (`approved = status == 'approved'`), not to an
approved one — the default follows the overall decision. -/
theorem reviewStep_default_cex :
    humanInvoked envC7 cR = true ∧
    (runReviewStep envC7 (some cR)).status = ReviewStatus.rejected ∧
    (runReviewStep envC7 (some cR)).feedback.text
      = some { approved := some false, feedback := some "N/A" } ∧
    approvedOf (runReviewStep envC7 (some cR)).feedback.text = false := by
  exact ⟨rfl, rfl, rfl, rfl⟩

/-- C7 (amended): whenever human review of a full post is invoked and
returns, its verdict fully supersedes the AI verdict — the resulting
status and per-component feedback are built from the human result alone —
and every component not covered by the human's returned feedback
defaults to a verdict whose `approved` flag equals the human's overall
decision, with the `'N/A'` feedback placeholder. -/
theorem reviewStep_human_supersedes (env : ReviewEnv) (c : ParsedContent)
    (hr : HumanResult)
    (hinv : humanInvoked env c = true) (hok : env.human = Except.ok hr) :
    (runReviewStep env (some c)).status =
      (if hr.approved then ReviewStatus.approved else ReviewStatus.rejected) ∧
    (runReviewStep env (some c)).feedback.text =
      some (hr.feedback.text.getD { approved := some hr.approved, feedback := some "N/A" }) ∧
    (runReviewStep env (some c)).feedback.image_prompt =
      some (hr.feedback.image_prompt.getD { approved := some hr.approved, feedback := some "N/A" }) := by
  simp [runReviewStep, hinv, hok]

/-- Witness for C7 (amended) at a concrete invoked human review. -/
theorem reviewStep_human_supersedes_witness :
    (runReviewStep envW7 (some cR)).status =
      (if hrW.approved then ReviewStatus.approved else ReviewStatus.rejected) ∧
    (runReviewStep envW7 (some cR)).feedback.text =
      some (hrW.feedback.text.getD { approved := some hrW.approved, feedback := some "N/A" }) ∧
    (runReviewStep envW7 (some cR)).feedback.image_prompt =
      some (hrW.feedback.image_prompt.getD { approved := some hrW.approved, feedback := some "N/A" }) :=
  reviewStep_human_supersedes envW7 cR hrW rfl rfl

/-! ## C9: the used-link append is gated and happens at most once -/

theorem countAppend_append (l1 l2 : List RunEvent) :
    countAppend (l1 ++ l2) = countAppend l1 + countAppend l2 :=
  List.countP_append _ _ _

theorem savePhase_no_append (renv : RunEnv) (p : String) (a : Option ParsedContent) :
    countAppend (savePhase renv p a).2.2 = 0 := by
  cases a with
  | none => rfl
  | some c =>
    cases hs : renv.saveOutcome p c (imageUrlOf renv p c) <;>
      simp [savePhase, hs, countAppend]

theorem savePhase_saved_iff (renv : RunEnv) (p : String) (a : Option ParsedContent) :
    hasSuccessfulSave (savePhase renv p a).2.2 = (savePhase renv p a).2.1 := by
  cases a with
  | none => rfl
  | some c =>
    cases hs : renv.saveOutcome p c (imageUrlOf renv p c) <;>
      simp [savePhase, hs, hasSuccessfulSave]

theorem appendGate (e1 e2 : List RunEvent) (b1 b2 : Bool) (links : List String)
    (h1 : countAppend e1 = 0) (h2 : countAppend e2 = 0)
    (hs1 : hasSuccessfulSave e1 = b1) (hs2 : hasSuccessfulSave e2 = b2) :
    countAppend (e1 ++ e2
        ++ (if links ≠ [] ∧ (b1 || b2) = true then [RunEvent.appendCall links] else [])) ≤ 1 ∧
    ((b1 || b2) = false →
      countAppend (e1 ++ e2
        ++ (if links ≠ [] ∧ (b1 || b2) = true then [RunEvent.appendCall links] else [])) = 0) ∧
    (1 ≤ countAppend (e1 ++ e2
        ++ (if links ≠ [] ∧ (b1 || b2) = true then [RunEvent.appendCall links] else [])) →
      hasSuccessfulSave (e1 ++ e2
        ++ (if links ≠ [] ∧ (b1 || b2) = true then [RunEvent.appendCall links] else [])) = true) := by
  by_cases hc : links ≠ [] ∧ (b1 || b2) = true
  · have hif : (if links ≠ [] ∧ (b1 || b2) = true
        then [RunEvent.appendCall links] else []) = [RunEvent.appendCall links] :=
      if_pos hc
    rw [hif]
    have hone : countAppend [RunEvent.appendCall links] = 1 := rfl
    refine ⟨?_, ?_, ?_⟩
    · rw [countAppend_append, countAppend_append, h1, h2, hone]
    · intro hfalse
      rw [hfalse] at hc
      simp at hc
    · intro _
      simp only [hasSuccessfulSave] at hs1 hs2 ⊢
      rw [List.any_append, List.any_append, hs1, hs2]
      simp [hc.2]
  · have hif : (if links ≠ [] ∧ (b1 || b2) = true
        then [RunEvent.appendCall links] else []) = [] :=
      if_neg hc
    rw [hif, List.append_nil]
    have hz : countAppend (e1 ++ e2) = 0 := by
      rw [countAppend_append, h1, h2]
    refine ⟨?_, ?_, ?_⟩
    · rw [hz]; omega
    · intro _; exact hz
    · intro hcount
      rw [hz] at hcount
      omega

/-- C9: in every run, the used-link append is invoked at most once; it
is never invoked when no post was saved; and whenever it is invoked, at
least one platform's post was successfully persisted in the same run
(`ContentWorkflow.run`, lines 597-603). -/
theorem appendLinks_once_gated (renv : RunEnv) :
    countAppend (runWorkflow renv).events ≤ 1 ∧
    ((runWorkflow renv).anyPostSaved = false →
      countAppend (runWorkflow renv).events = 0) ∧
    (1 ≤ countAppend (runWorkflow renv).events →
      hasSuccessfulSave (runWorkflow renv).events = true) := by
  cases hs : (runNewsStep renv.newsEnv).status with
  | rejected => simp [runWorkflow, hs, countAppend]
  | no_news => simp [runWorkflow, hs, countAppend]
  | approved =>
    have hmain := appendGate
      (savePhase renv "Instagram"
        (runPlatform (renv.platformEnv "Instagram") renv.maxRegen).2.1).2.2
      (savePhase renv "Rednote"
        (runPlatform (renv.platformEnv "Rednote") renv.maxRegen).2.1).2.2
      (savePhase renv "Instagram"
        (runPlatform (renv.platformEnv "Instagram") renv.maxRegen).2.1).2.1
      (savePhase renv "Rednote"
        (runPlatform (renv.platformEnv "Rednote") renv.maxRegen).2.1).2.1
      (runNewsStep renv.newsEnv).fetched_articles.asLinks
      (savePhase_no_append renv "Instagram"
        (runPlatform (renv.platformEnv "Instagram") renv.maxRegen).2.1)
      (savePhase_no_append renv "Rednote"
        (runPlatform (renv.platformEnv "Rednote") renv.maxRegen).2.1)
      (savePhase_saved_iff renv "Instagram"
        (runPlatform (renv.platformEnv "Instagram") renv.maxRegen).2.1)
      (savePhase_saved_iff renv "Rednote"
        (runPlatform (renv.platformEnv "Rednote") renv.maxRegen).2.1)
    simp only [runWorkflow, hs]
    exact hmain

